import Mathlib

/-!
Verification of the relevance-filtering and deduplication pipeline of
`job_search_selenium.py`.  Strings are modelled by Lean `String`
(a list of characters); Python substring containment (`needle in hay`)
and ASCII lower-casing are embedded below.  All terms appearing in the
program's configuration lists are ASCII, so `Char.toLower` agrees with
Python `str.lower` on every character that can influence a match.
-/

namespace JobSearch

/-- ASCII lower-casing of a string, embedding Python `str.lower()`. -/
def lowerStr (s : String) : String :=
  ⟨s.data.map Char.toLower⟩

/-- Substring containment on character lists: `listContainsSub needle hay`
is true when `needle` occurs contiguously inside `hay`. -/
def listContainsSub (needle : List Char) : List Char → Bool
  | [] => needle.isEmpty
  | c :: rest => needle.isPrefixOf (c :: rest) || listContainsSub needle rest

/-- Python `needle in hay` on strings. -/
def pyContains (hay needle : String) : Bool :=
  listContainsSub needle.data hay.data

/-- Configuration list `SEARCH_TERMS` from the source. -/
def SEARCH_TERMS : List String :=
  ["digital health", "telemedicine", "eHealth", "mHealth",
   "health IT", "interoperability health", "FHIR", "HL7",
   "AI healthcare", "health informatics", "digitale Gesundheit", "Telemedizin"]

/-- Configuration list `EXPERIENCE_LEVELS` from the source. -/
def EXPERIENCE_LEVELS : List String :=
  ["junior", "entry", "graduate", "trainee", "praktikum", "werkstudent"]

/-- Configuration list `EXCLUDE_TERMS` from the source. -/
def EXCLUDE_TERMS : List String :=
  ["project manager", "senior", "lead", "principal", "director", "head of", "developer"]

/-- The `JobPosting` dataclass. -/
structure JobPosting where
  title : String
  company : String
  location : String
  languages : List String
  link : String
  date_posted : String
  source : String
deriving Repr, DecidableEq

/-- Embedding of `JobScraper.is_relevant_job`. -/
def is_relevant_job (title : String) : Bool :=
  let title_lower := lowerStr title
  if EXCLUDE_TERMS.any (fun exclude => pyContains title_lower exclude) then
    false
  else
    let is_junior := EXPERIENCE_LEVELS.any (fun level => pyContains title_lower level)
    is_junior || !(["senior", "lead", "principal"].any (fun term => pyContains title_lower term))

/-- The language pattern table of `JobScraper.extract_languages`
(insertion order of the Python dict). -/
def patterns : List (String × List String) :=
  [("English", ["english", "englisch"]), ("German", ["german", "deutsch"])]

/-- Embedding of `JobScraper.extract_languages`: the Python loop appends the
tag of each pattern group with a matching term, in table order; an empty
result is replaced by the sentinel. -/
def extract_languages (text : String) : List String :=
  let text_lower := lowerStr text
  let languages := patterns.filterMap
    (fun p => if p.2.any (fun term => pyContains text_lower term) then some p.1 else none)
  if languages.isEmpty then ["Not specified"] else languages

/-- Spec-side predicate: the lower-cased title contains some exclusion phrase. -/
def hasExclusionPhrase (title : String) : Bool :=
  EXCLUDE_TERMS.any (fun p => pyContains (lowerStr title) p)

/-- Spec-side predicate: the lower-cased title contains some junior/entry-level phrase. -/
def hasJuniorPhrase (title : String) : Bool :=
  EXPERIENCE_LEVELS.any (fun p => pyContains (lowerStr title) p)

/-- Spec-side predicate: the lower-cased title contains a senior-tier phrase. -/
def hasSeniorTierPhrase (title : String) : Bool :=
  ["senior", "lead", "principal"].any (fun p => pyContains (lowerStr title) p)

/-- Spec-side predicate (for the refinement claim): relevance decided by the
exclusion list alone. -/
def isRelevantNoExclusion (title : String) : Bool :=
  !(hasExclusionPhrase title)

/-- Spec-side predicate: the lower-cased text contains an English synonym. -/
def mentionsEnglish (text : String) : Bool :=
  ["english", "englisch"].any (fun term => pyContains (lowerStr text) term)

/-- Spec-side predicate: the lower-cased text contains a German synonym. -/
def mentionsGerman (text : String) : Bool :=
  ["german", "deutsch"].any (fun term => pyContains (lowerStr text) term)

/-- The link column of the sheet (column F), `link_column_index` in the source. -/
def link_column_index : Nat := 5

/-- Embedding of `GoogleSheetsManager._load_existing_links`: read all rows,
skip the header, and collect column F of every row long enough to have one.
The in-memory set is modelled as a list with membership semantics. -/
def load_existing_links (all_values : List (List String)) : List String :=
  if all_values.length > 1 then
    ((all_values.drop 1).filter (fun row => link_column_index < row.length)).map
      (fun row => row.getD link_column_index "")
  else
    []

/-- The row built for one job in `GoogleSheetsManager.save_jobs`; `now` stands
for `datetime.now().strftime(...)` at the time of the call. -/
def jobRow (now : String) (job : JobPosting) : List String :=
  [now, job.title, job.company, job.location,
   String.intercalate ", " job.languages, job.link, job.date_posted, job.source]

/-- Embedding of `GoogleSheetsManager.save_jobs`: walk the batch in order;
a job whose link is not in the running known-links set is staged as a row and
its link is added to the set immediately.  Returns the staged rows (in order)
and the final known-links set. -/
def saveJobs (now : String) : List JobPosting → List String → List (List String) × List String
  | [], existing => ([], existing)
  | job :: rest, existing =>
    if job.link ∈ existing then
      saveJobs now rest existing
    else
      let r := saveJobs now rest (job.link :: existing)
      (jobRow now job :: r.1, r.2)

/-- The link stored in a staged row (column F). -/
def rowLink (row : List String) : String := row.getD link_column_index ""

/-- A listing element as seen by a scraper: each field extraction may fail
(missing element, stale reference), which the code turns into skipping the
candidate. -/
structure Card where
  title? : Option String
  company? : Option String
  location? : Option String
  link? : Option String
deriving Repr, DecidableEq

/-- The per-card body of each scraper's inner loop: extract the title, drop
irrelevant titles, extract the remaining fields, and build a `JobPosting`;
any failed extraction skips just this candidate. -/
def processCard (source now : String) (card : Card) : Option JobPosting :=
  match card.title? with
  | none => none
  | some title =>
    if is_relevant_job title then
      match card.company?, card.location?, card.link? with
      | some company, some location, some link =>
        some { title := title, company := company, location := location,
               languages := extract_languages title, link := link,
               date_posted := now, source := source }
      | _, _, _ => none
    else
      none

/-- One page of a scraper: only the first 20 listing elements are considered
(`job_cards[:20]` in the source). -/
def extractPage (source now : String) (cards : List Card) : List JobPosting :=
  (cards.take 20).filterMap (processCard source now)

/-- The search terms each scraper iterates over per invocation:
`SEARCH_TERMS[:3]` in every scraper. -/
def termsPerInvocation : List String :=
  SEARCH_TERMS.take 3

/-- Embedding of a scraper's `search_jobs` loop: for each of the first three
search terms, load the page (`none` models a load failure or timeout, which is
caught and yields nothing for that term) and extract from its cards. -/
def search_jobs (source now : String) (pages : String → Option (List Card)) : List JobPosting :=
  (termsPerInvocation.map
    (fun term =>
      match pages term with
      | none => []
      | some cards => extractPage source now cards)).flatten

/-- Observable events of one orchestrator run. -/
inductive Event where
  | startDriver
  | connect
  | scraperOk (found : Nat)
  | scraperFail
  | appendRows (n : Nat)
  | closeDriver
deriving Repr, DecidableEq

/-- The environment of one run: which external steps succeed, what each
scraper returns (`none` models a scraper raising), and the links loaded at
connect time. -/
structure Env where
  driverOk : Bool
  connectOk : Bool
  scraperResults : List (Option (List JobPosting))
  saveOk : Bool
  existingLinks : List String
  now : String

/-- The scraper loop of `run_search`: each scraper runs in its own
`try`/`except`, a failure is logged and the loop continues; successful
results are concatenated in order. -/
def runScrapers : List (Option (List JobPosting)) → List Event × List JobPosting
  | [] => ([], [])
  | some js :: rest =>
    let r := runScrapers rest
    (Event.scraperOk js.length :: r.1, js ++ r.2)
  | none :: rest =>
    let r := runScrapers rest
    (Event.scraperFail :: r.1, r.2)

/-- The `try` block of `JobSearchOrchestrator.run_search`: start the driver,
connect the sheet, run the scrapers, save.  The second component is the
exception (if any) reaching the surrounding `except`.  `append_rows` is only
called when there are staged rows (`if new_jobs:` in the source). -/
def runTry (env : Env) : List Event × Option Unit :=
  if env.driverOk then
    if env.connectOk then
      let p := runScrapers env.scraperResults
      let s := saveJobs env.now p.2 env.existingLinks
      if s.1.isEmpty then
        (Event.startDriver :: Event.connect :: p.1, none)
      else if env.saveOk then
        (Event.startDriver :: Event.connect :: p.1 ++ [Event.appendRows s.1.length], none)
      else
        (Event.startDriver :: Event.connect :: p.1 ++ [Event.appendRows s.1.length], some ())
    else
      ([Event.startDriver], some ())
  else
    ([], some ())

/-- Embedding of `JobSearchOrchestrator.run_search`: the `except` clause
catches whatever the `try` block raises, and the `finally` clause invokes
`close_driver` on every path.  The second component is the error escaping the
run boundary. -/
def run_search (env : Env) : List Event × Option Unit :=
  let t := runTry env
  (t.1 ++ [Event.closeDriver], none)

@[simp]
lemma rowLink_jobRow (now : String) (job : JobPosting) : rowLink (jobRow now job) = job.link := rfl

/-- A link is staged by `saveJobs` exactly when it is the link of some job of
the batch and is not already known. -/
lemma mem_stagedLinks (now : String) :
    ∀ (jobs : List JobPosting) (ex : List String) (l : String),
      l ∈ (saveJobs now jobs ex).1.map rowLink ↔ (∃ j ∈ jobs, j.link = l) ∧ l ∉ ex := by
  intro jobs
  induction jobs with
  | nil => intro ex l; simp [saveJobs]
  | cons job rest ih =>
    intro ex l
    by_cases hmem : job.link ∈ ex
    · simp only [saveJobs, if_pos hmem, ih, List.mem_cons]
      constructor
      · rintro ⟨⟨j, hj, rfl⟩, hl⟩
        exact ⟨⟨j, Or.inr hj, rfl⟩, hl⟩
      · rintro ⟨⟨j, hj | hj, rfl⟩, hl⟩
        · exact absurd (hj ▸ hmem) hl
        · exact ⟨⟨j, hj, rfl⟩, hl⟩
    · simp only [saveJobs, if_neg hmem, List.map_cons, rowLink_jobRow, List.mem_cons, ih,
        not_or]
      constructor
      · rintro (rfl | ⟨⟨j, hj, rfl⟩, hne, hl⟩)
        · exact ⟨⟨job, Or.inl rfl, rfl⟩, hmem⟩
        · exact ⟨⟨j, Or.inr hj, rfl⟩, hl⟩
      · rintro ⟨⟨j, hj, rfl⟩, hl⟩
        rcases hj with rfl | hj
        · exact Or.inl rfl
        · by_cases heq : j.link = job.link
          · exact Or.inl heq
          · exact Or.inr ⟨⟨j, hj, rfl⟩, heq, hl⟩

/-- The links staged in one `saveJobs` call are pairwise distinct. -/
lemma stagedLinks_nodup (now : String) :
    ∀ (jobs : List JobPosting) (ex : List String),
      ((saveJobs now jobs ex).1.map rowLink).Nodup := by
  intro jobs
  induction jobs with
  | nil => intro ex; simp [saveJobs]
  | cons job rest ih =>
    intro ex
    by_cases hmem : job.link ∈ ex
    · simpa only [saveJobs, if_pos hmem] using ih ex
    · simp only [saveJobs, if_neg hmem, List.map_cons, rowLink_jobRow, List.nodup_cons]
      refine ⟨fun hcon => ?_, ih _⟩
      rw [mem_stagedLinks] at hcon
      exact hcon.2 (List.mem_cons_self _ _)

/-- The known-links set after `saveJobs` holds exactly the previously known
links together with the staged links. -/
lemma mem_saveJobs_snd (now : String) :
    ∀ (jobs : List JobPosting) (ex : List String) (x : String),
      x ∈ (saveJobs now jobs ex).2 ↔ x ∈ ex ∨ x ∈ (saveJobs now jobs ex).1.map rowLink := by
  intro jobs
  induction jobs with
  | nil => intro ex x; simp [saveJobs]
  | cons job rest ih =>
    intro ex x
    by_cases hmem : job.link ∈ ex
    · simp only [saveJobs, if_pos hmem]
      exact ih ex x
    · simp only [saveJobs, if_neg hmem, List.map_cons, rowLink_jobRow, List.mem_cons]
      rw [ih (job.link :: ex) x]
      simp only [List.mem_cons]
      tauto

/-- The link of every job of the batch is known after `saveJobs`. -/
lemma link_mem_saveJobs_snd (now : String) (jobs : List JobPosting) (ex : List String)
    (j : JobPosting) (hj : j ∈ jobs) : j.link ∈ (saveJobs now jobs ex).2 := by
  rw [mem_saveJobs_snd]
  by_cases hex : j.link ∈ ex
  · exact Or.inl hex
  · exact Or.inr ((mem_stagedLinks now jobs ex j.link).mpr ⟨⟨j, hj, rfl⟩, hex⟩)

/-- A batch whose links are all already known stages nothing. -/
lemma saveJobs_fst_eq_nil (now : String) (jobs : List JobPosting) (ex : List String)
    (h : ∀ j ∈ jobs, j.link ∈ ex) : (saveJobs now jobs ex).1 = [] := by
  have hmap : (saveJobs now jobs ex).1.map rowLink = [] := by
    rw [List.eq_nil_iff_forall_not_mem]
    intro l hl
    rw [mem_stagedLinks] at hl
    obtain ⟨⟨j, hj, rfl⟩, hnot⟩ := hl
    exact hnot (h j hj)
  exact List.map_eq_nil_iff.mp hmap

/-- `is_relevant_job` unfolded against the spec-side predicates. -/
lemma is_relevant_job_eq (title : String) :
    is_relevant_job title =
      if hasExclusionPhrase title then false
      else hasJuniorPhrase title || !(hasSeniorTierPhrase title) := rfl

/-- Every senior-tier phrase is an exclusion phrase, so a title free of
exclusion phrases is free of senior-tier phrases. -/
lemma seniorTier_false_of_no_exclusion (title : String)
    (h : hasExclusionPhrase title = false) : hasSeniorTierPhrase title = false := by
  simp only [hasExclusionPhrase, EXCLUDE_TERMS, List.any_cons, List.any_nil,
    Bool.or_eq_false_iff] at h
  simp only [hasSeniorTierPhrase, List.any_cons, List.any_nil, Bool.or_eq_false_iff]
  exact ⟨h.2.1, h.2.2.1, h.2.2.2.1, trivial⟩

/-- Claim C1: `is_relevant_job` returns false when the lower-cased title
contains an exclusion phrase; otherwise it returns true when the title
contains a junior/entry-level phrase or contains no senior-tier phrase, so
titles that are neither explicitly junior nor explicitly senior are
accepted. -/
theorem C1_is_relevant_job_spec (title : String) :
    is_relevant_job title =
      if hasExclusionPhrase title then false
      else hasJuniorPhrase title || !(hasSeniorTierPhrase title) :=
  is_relevant_job_eq title

/-- Claim C10: because the senior-tier phrases are all exclusion phrases, the
junior/senior branch of `is_relevant_job` is redundant: a title is relevant
exactly when its lower-cased form contains no exclusion phrase. -/
theorem C10_relevance_is_exclusion_only (title : String) :
    is_relevant_job title = isRelevantNoExclusion title := by
  rw [is_relevant_job_eq]
  unfold isRelevantNoExclusion
  cases h : hasExclusionPhrase title with
  | true => simp
  | false => simp [seniorTier_false_of_no_exclusion title h]

/-- Claim C4: `extract_languages` returns the union of the tags whose term
group has a member occurring in the lower-cased text, or the sentinel tag
when no group matched; the two spec examples hold and the result is never
empty. -/
theorem C4_extract_languages_spec :
    (∀ text,
      ("English" ∈ extract_languages text ↔ mentionsEnglish text = true)
      ∧ ("German" ∈ extract_languages text ↔ mentionsGerman text = true)
      ∧ ("Not specified" ∈ extract_languages text ↔
          (mentionsEnglish text = false ∧ mentionsGerman text = false))
      ∧ extract_languages text ≠ [])
    ∧ extract_languages "Fluent in English and Deutsch required" = ["English", "German"]
    ∧ extract_languages "no language mentioned" = ["Not specified"] := by
  refine ⟨fun text => ?_, by decide, by decide⟩
  cases h1 : pyContains (lowerStr text) "english" <;>
    cases h2 : pyContains (lowerStr text) "englisch" <;>
      cases h3 : pyContains (lowerStr text) "german" <;>
        cases h4 : pyContains (lowerStr text) "deutsch" <;>
          simp [extract_languages, patterns, mentionsEnglish, mentionsGerman, h1, h2, h3, h4]

/-- Claim C2: within one `saveJobs` batch, a candidate is staged exactly when
its link is absent from the running known-links set when it is processed (so
staged links are pairwise distinct and disjoint from the pre-existing set),
and a batch holding two candidates with the same fresh link yields exactly
one staged row. -/
theorem C2_within_batch_dedup (now : String) (existing : List String) (jobs : List JobPosting) :
    ((saveJobs now jobs existing).1.map rowLink).Nodup
    ∧ (∀ l, l ∈ (saveJobs now jobs existing).1.map rowLink ↔
        (∃ j ∈ jobs, j.link = l) ∧ l ∉ existing)
    ∧ (∀ j1 j2 : JobPosting, j1.link = j2.link → j1.link ∉ existing →
        (saveJobs now [j1, j2] existing).1.length = 1) := by
  refine ⟨stagedLinks_nodup now jobs existing,
    fun l => mem_stagedLinks now jobs existing l, ?_⟩
  intro j1 j2 heq hnot
  simp [saveJobs, hnot, ← heq]

/-- Witness for C2 at a concrete two-candidate batch sharing one link. -/
theorem C2_witness :
    (saveJobs "2024-01-01 08:00"
      [⟨"Junior Analyst", "ACME", "Leipzig", ["English"], "linkA", "2024-01-01", "LinkedIn"⟩,
       ⟨"Data Analyst", "Globex", "remote", ["German"], "linkA", "2024-01-01", "XING"⟩]
      []).1.length = 1 :=
  (C2_within_batch_dedup "2024-01-01 08:00" []
      [⟨"Junior Analyst", "ACME", "Leipzig", ["English"], "linkA", "2024-01-01", "LinkedIn"⟩,
       ⟨"Data Analyst", "Globex", "remote", ["German"], "linkA", "2024-01-01", "XING"⟩]).2.2
    ⟨"Junior Analyst", "ACME", "Leipzig", ["English"], "linkA", "2024-01-01", "LinkedIn"⟩
    ⟨"Data Analyst", "Globex", "remote", ["German"], "linkA", "2024-01-01", "XING"⟩
    rfl (by decide)

/-- Claim C3: deduplication is idempotent — running `saveJobs` twice on the
same batch stages nothing on the second call — and an empty staged batch is
not an error: the save step raises nothing when there is nothing to append,
so the run finishes without an escaping error. -/
theorem C3_dedup_idempotent (now1 now2 : String) (existing : List String)
    (jobs : List JobPosting) :
    (saveJobs now2 jobs (saveJobs now1 jobs existing).2).1 = []
    ∧ (∀ env : Env, env.driverOk = true → env.connectOk = true →
        (saveJobs env.now (runScrapers env.scraperResults).2 env.existingLinks).1 = [] →
        (runTry env).2 = none ∧ (run_search env).2 = none) := by
  constructor
  · exact saveJobs_fst_eq_nil now2 jobs _
      (fun j hj => link_mem_saveJobs_snd now1 jobs existing j hj)
  · intro env h1 h2 h3
    refine ⟨?_, rfl⟩
    simp [runTry, h1, h2, h3]

/-- Witness for C3 at a concrete batch and a concrete run environment. -/
theorem C3_witness :
    (saveJobs "n2"
      [⟨"Junior Analyst", "ACME", "Leipzig", ["English"], "linkB", "2024-01-01", "LinkedIn"⟩]
      (saveJobs "n1"
        [⟨"Junior Analyst", "ACME", "Leipzig", ["English"], "linkB", "2024-01-01", "LinkedIn"⟩]
        []).2).1 = []
    ∧ (runTry ⟨true, true, [], true, [], "n1"⟩).2 = none :=
  ⟨(C3_dedup_idempotent "n1" "n2" []
      [⟨"Junior Analyst", "ACME", "Leipzig", ["English"], "linkB", "2024-01-01", "LinkedIn"⟩]).1,
   ((C3_dedup_idempotent "n1" "n1" [] []).2 ⟨true, true, [], true, [], "n1"⟩
      rfl rfl rfl).1⟩

/-- Claim C5: the known-links set is never shrunk by `saveJobs`: the set
after a call holds exactly the previously known links together with the
links of the newly staged rows (hence it is a superset of its previous
value). -/
theorem C5_known_links_only_grow (now : String) (jobs : List JobPosting)
    (existing : List String) :
    ∀ x, x ∈ (saveJobs now jobs existing).2 ↔
      x ∈ existing ∨ x ∈ (saveJobs now jobs existing).1.map rowLink :=
  mem_saveJobs_snd now jobs existing

/-- Claim C6: `load_existing_links` is total on every table contents; a link
is loaded exactly when some row after the header is long enough to have a
link column and holds that link there, and a table whose non-header rows are
all too short loads nothing. -/
theorem C6_load_links_tolerates_short_rows (all_values : List (List String)) :
    (∀ l, l ∈ load_existing_links all_values ↔
        ∃ r ∈ all_values.drop 1, link_column_index < r.length
          ∧ r.getD link_column_index "" = l)
    ∧ (∀ (header : List String) (rows : List (List String)),
        (∀ r ∈ rows, r.length ≤ link_column_index) →
        load_existing_links (header :: rows) = []) := by
  constructor
  · intro l
    by_cases h : all_values.length > 1
    · simp [load_existing_links, h, List.mem_filter, and_assoc]
    · have hdrop : all_values.drop 1 = [] := by
        apply List.drop_eq_nil_of_le
        omega
      simp [load_existing_links, h, hdrop]
  · intro header rows h
    by_cases hlen : (header :: rows).length > 1
    · simp only [load_existing_links, if_pos hlen, List.drop_succ_cons, List.drop_zero,
        List.map_eq_nil_iff, List.filter_eq_nil_iff]
      intro r hr
      simp only [decide_eq_true_eq, Nat.not_lt]
      exact h r hr
    · have hrows : rows = [] := by
        cases rows with
        | nil => rfl
        | cons a l => exact absurd (by simp) hlen
      subst hrows
      rfl

/-- Witness for C6: a table with one malformed (four-column) row loads no
links. -/
theorem C6_witness :
    load_existing_links
      [["Data Cadastro", "Título", "Empresa", "Localização", "Idiomas", "Link"],
       ["2024-01-01", "Junior Analyst", "ACME", "Leipzig"]] = [] :=
  (C6_load_links_tolerates_short_rows []).2
    ["Data Cadastro", "Título", "Empresa", "Localização", "Idiomas", "Link"]
    [["2024-01-01", "Junior Analyst", "ACME", "Leipzig"]] (by decide)

/-- Claim C7: when the driver cannot be started, the run performs no
persistence call at all — no sheet connection and no row append — it still
ends in cleanup (`close_driver` is the last event) and no error escapes the
run. -/
theorem C7_driver_failure_aborts_cleanly (env : Env) (h : env.driverOk = false) :
    (run_search env).1 = [Event.closeDriver]
    ∧ Event.connect ∉ (run_search env).1
    ∧ (∀ n, Event.appendRows n ∉ (run_search env).1)
    ∧ (run_search env).1.getLast? = some Event.closeDriver
    ∧ (run_search env).2 = none := by
  have h1 : (run_search env).1 = [Event.closeDriver] := by
    simp [run_search, runTry, h]
  refine ⟨h1, ?_, ?_, ?_, rfl⟩
  · rw [h1]; decide
  · intro n; rw [h1]; simp
  · rw [h1]; rfl

/-- Witness for C7 at a concrete failing-driver environment. -/
theorem C7_witness :
    (run_search ⟨false, true, [], true, [], "t"⟩).1 = [Event.closeDriver] :=
  (C7_driver_failure_aborts_cleanly ⟨false, true, [], true, [], "t"⟩ rfl).1

/-- Claim C8: on every exit path of a run — normal completion, fatal
connection failure, source-level failure, or a failing append — no error
escapes the run boundary and `close_driver` is invoked last, in cleanup. -/
theorem C8_cleanup_on_every_path (env : Env) :
    (run_search env).2 = none
    ∧ Event.closeDriver ∈ (run_search env).1
    ∧ (run_search env).1.getLast? = some Event.closeDriver := by
  refine ⟨rfl, ?_, ?_⟩
  · show Event.closeDriver ∈ (runTry env).1 ++ [Event.closeDriver]
    exact List.mem_append_right _ (List.mem_singleton_self _)
  · show ((runTry env).1 ++ [Event.closeDriver]).getLast? = some Event.closeDriver
    rw [List.getLast?_concat]

/-- Counterexample to claim C9: the per-invocation search-term bound is not a
configurable value — it is the hardcoded slice `SEARCH_TERMS[:3]`, so every
scraper invocation iterates over exactly the first three catalog terms. -/
theorem C9_counterexample :
    termsPerInvocation = ["digital health", "telemedicine", "eHealth"]
    ∧ termsPerInvocation.length = 3 := by decide

/-- Claim C9 as amended: each scraper invocation iterates over exactly the
first three search terms of the catalog (a hardcoded bound of three: the
result depends on no page outside those terms), and considers at most the
first 20 listing elements per page. -/
theorem C9_bounded_terms_and_cards (source now : String) :
    termsPerInvocation.length = 3
    ∧ (∀ pages pagesB : String → Option (List Card),
        (∀ t ∈ termsPerInvocation, pages t = pagesB t) →
        search_jobs source now pages = search_jobs source now pagesB)
    ∧ (∀ cards, extractPage source now cards = extractPage source now (cards.take 20)
        ∧ (extractPage source now cards).length ≤ 20) := by
  refine ⟨rfl, ?_, fun cards => ⟨?_, ?_⟩⟩
  · intro pages pagesB hagree
    unfold search_jobs
    congr 1
    apply List.map_congr_left
    intro t ht
    rw [hagree t ht]
  · simp [extractPage, List.take_take]
  · exact le_trans (List.length_filterMap_le _ _) (List.length_take_le _ _)

/-- Page environments for the C9 witness: two environments that agree on the
first three search terms but differ on a later one. -/
def noPages : String → Option (List Card) := fun _ => none

/-- See `noPages`. -/
def noPagesOffTerm : String → Option (List Card) :=
  fun t => if t = "HL7" then some [] else none

/-- Witness for the amended C9: two page environments agreeing on the first
three terms produce the same postings. -/
theorem C9_witness :
    search_jobs "LinkedIn" "2024-01-01" noPages =
      search_jobs "LinkedIn" "2024-01-01" noPagesOffTerm :=
  (C9_bounded_terms_and_cards "LinkedIn" "2024-01-01").2.1 noPages noPagesOffTerm (by decide)

end JobSearch
